import Mathlib

/-!
Shallow embedding of the rxjs-testing repository's two instrumented
consumers and proofs of the specification claims about them.

* `RxTest.TSState` and its operations embed `TestSubscriber<T>` from
  `src/src/testsubscriber.ts`: demand-limited `next`, always-processed
  `error`/`complete`, delegate forwarding with caught exceptions, the
  one-shot terminal-event promise/resolver pair, the assertion helpers
  and `reset`.
* `RxTest.TOState` and its operations embed `TestObserver<T>` from
  `src/src/testobserver.ts`: log recording, at-most-once subscription
  binding, direct (uncaught) delegate forwarding, `assertSubscribed`,
  `subscribeTo` and the alias-returning `getLogs`.

Modelling conventions, fixed once for the whole file:
* JavaScript exceptions thrown by a delegate handler are values of the
  error type `E`.  A call that may throw is embedded as a function
  returning the mutated state together with an `Option` of the
  exception that propagates to the caller; `try { ... } catch` blocks
  of the source are embedded by discarding the delegate's exception
  (the source only logs it), so the handler's propagated component is
  `none` on that path exactly as in the code.
* `JSON.stringify` (used by `TestSubscriber.isEqual` and in assertion
  messages) is an abstract serialisation function `strV : V → String`
  passed as a parameter.
* The demand limit `initialRequest` is a JavaScript number that
  defaults to `Number.POSITIVE_INFINITY`; it is embedded as
  `Option Nat` with `none` standing for infinity, so that the guard
  `onNextEvents.length < initialRequest` of `next` becomes the test
  `demandOpen` below (any finite length is `< Infinity`).
* The pair (`terminalEventPromise`, `terminalEventResolver`) is
  embedded by `resolverLive : Bool` (the stored resolver is still the
  real one, not the no-op it is replaced with after the first call)
  and `resolveCount : Nat` (how many times the current promise's
  resolver has been invoked); `reset` re-creates both, which is a
  fresh promise with a live resolver and zero resolutions.
* Calls made on the delegate are observed in the ghost field
  `delegateTrace`; it records exactly the sequence of delegate
  invocations performed by the source code.
* The wall-clock field `lastEventTimestamp` (a `Date.now()`-derived
  diagnostic string) is not modelled; no claim mentions it.
-/

namespace RxTest

/-- A call made on a delegate observer, as observed from outside. -/
inductive DEvent (V E : Type) where
  | dnext (v : V)
  | derror (e : E)
  | dcomplete
  deriving DecidableEq, Repr

/-- Behaviour of a delegate observer: for each handler, whether the call
throws (`some e` = throws the exception `e`) or returns normally. -/
structure Delegate (V E : Type) where
  nextThrows : V → Option E
  errorThrows : E → Option E
  completeThrows : Option E

/-- The state of a `TestSubscriber<T>` instance
(`src/src/testsubscriber.ts`), per the conventions in the file header. -/
structure TSState (V E : Type) where
  delegate : Option (Delegate V E)
  initialRequest : Option Nat
  onNextEvents : List V
  errorEvents : List E
  completions : Nat
  terminalEventReceived : Bool
  resolverLive : Bool
  resolveCount : Nat
  delegateTrace : List (DEvent V E)

/-- The state a `TestSubscriber` constructor produces: empty histories,
no terminal event, a fresh promise with a live, never-invoked resolver. -/
def mkTS {V E : Type} (delegate : Option (Delegate V E))
    (initialRequest : Option Nat) : TSState V E :=
  { delegate := delegate
    initialRequest := initialRequest
    onNextEvents := []
    errorEvents := []
    completions := 0
    terminalEventReceived := false
    resolverLive := true
    resolveCount := 0
    delegateTrace := [] }

/-- The guard of `TestSubscriber.next`:
`this.onNextEvents.length < this.initialRequest`, with
`none` = `Number.POSITIVE_INFINITY` (every finite length is below it). -/
def demandOpen {V E : Type} (s : TSState V E) : Bool :=
  match s.initialRequest with
  | none => true
  | some l => s.onNextEvents.length < l

/-- `TestSubscriber.onNext`: push the value, forward to the delegate if
present, catching (and only logging) anything the delegate throws.
Returns the new state and the exception propagating to the caller. -/
def onNext {V E : Type} (s : TSState V E) (v : V) : TSState V E × Option E :=
  let s1 := { s with onNextEvents := s.onNextEvents ++ [v] }
  match s.delegate with
  | none => (s1, none)
  | some d =>
      let s2 := { s1 with delegateTrace := s1.delegateTrace ++ [DEvent.dnext v] }
      match d.nextThrows v with
      | some _ => (s2, none)
      | none => (s2, none)

/-- `TestSubscriber.next`: process via `onNext` while the recorded value
count is below the demand limit, otherwise silently drop the value. -/
def next {V E : Type} (s : TSState V E) (v : V) : TSState V E × Option E :=
  if demandOpen s then onNext s v else (s, none)

/-- The resolver invocation at the end of `onError`/`onCompleted`:
`terminalEventResolver()` followed by replacing it with a no-op.  The
stored resolver is always truthy, so the surrounding `if` always runs;
only a still-live resolver actually resolves the promise. -/
def fireResolver {V E : Type} (s : TSState V E) : TSState V E :=
  if s.resolverLive then
    { s with resolveCount := s.resolveCount + 1, resolverLive := false }
  else s

/-- `TestSubscriber.onError`: record the cause, mark the terminal flag,
forward to the delegate catching its exception, resolve the pending
terminal promise (at most once). -/
def onError {V E : Type} (s : TSState V E) (e : E) : TSState V E × Option E :=
  let s1 := { s with errorEvents := s.errorEvents ++ [e], terminalEventReceived := true }
  let s2 :=
    match s.delegate with
    | none => s1
    | some d =>
        let s1' := { s1 with delegateTrace := s1.delegateTrace ++ [DEvent.derror e] }
        match d.errorThrows e with
        | some _ => s1'
        | none => s1'
  (fireResolver s2, none)

/-- `TestSubscriber.onCompleted`: count the completion, mark the terminal
flag, forward to the delegate catching its exception, resolve the
pending terminal promise (at most once). -/
def onCompleted {V E : Type} (s : TSState V E) : TSState V E × Option E :=
  let s1 := { s with completions := s.completions + 1, terminalEventReceived := true }
  let s2 :=
    match s.delegate with
    | none => s1
    | some d =>
        let s1' := { s1 with delegateTrace := s1.delegateTrace ++ [DEvent.dcomplete] }
        match d.completeThrows with
        | some _ => s1'
        | none => s1'
  (fireResolver s2, none)

/-- `TestSubscriber.error` delegates straight to `onError`. -/
def error {V E : Type} (s : TSState V E) (e : E) : TSState V E × Option E :=
  onError s e

/-- `TestSubscriber.complete` delegates straight to `onCompleted`. -/
def complete {V E : Type} (s : TSState V E) : TSState V E × Option E :=
  onCompleted s

/-- Feeding a sequence of values to `next`, in order. -/
def nextAll {V E : Type} (s : TSState V E) : List V → TSState V E
  | [] => s
  | v :: vs => nextAll (next s v).1 vs

/-- `TestSubscriber.assertCompleted`: throw unless the completion counter
is exactly 1, with the message produced by the source's template literal. -/
def assertCompleted {V E : Type} (s : TSState V E) : Except String Unit :=
  if s.completions ≠ 1 then
    Except.error
      ("Expected exactly 1 completion event, but received " ++ toString s.completions)
  else Except.ok ()

/-- `TestSubscriber.assertNoErrors`: throw if any error was recorded.
The message embeds the error list through the serialisation `strE`. -/
def assertNoErrors {V E : Type} (strE : List E → String) (s : TSState V E) :
    Except String Unit :=
  if s.errorEvents.length > 0 then
    Except.error
      ("Expected no errors, but received " ++ toString s.errorEvents.length ++ ": "
        ++ strE s.errorEvents)
  else Except.ok ()

/-- The element loop of `TestSubscriber.assertValues`
(`expected.forEach(...)` with a throwing `fail`): walk the expected
values in order and throw at the first index where
`isEqual(onNextEvents[index], value)` is false, where `isEqual` compares
`JSON.stringify` images (here the abstract serialisation `strV`).
`recorded.getD index` is `this.onNextEvents[index]` (the caller has
already ensured the lengths match, so the default is never consulted). -/
def assertValuesLoop {V : Type} (strV : V → String) (recorded : List V) :
    Nat → List V → Except String Unit
  | _, [] => Except.ok ()
  | index, value :: rest =>
      if strV (recorded.getD index value) = strV value then
        assertValuesLoop strV recorded (index + 1) rest
      else
        Except.error
          ("Value mismatch at index " ++ toString index ++ ": expected "
            ++ strV value ++ ", but received " ++ strV (recorded.getD index value))

/-- `TestSubscriber.assertValues`: the length check first (throwing the
count-mismatch message), then the element-wise loop. -/
def assertValues {V E : Type} (strV : V → String) (strVs : List V → String)
    (s : TSState V E) (expected : List V) : Except String Unit :=
  if s.onNextEvents.length ≠ expected.length then
    Except.error
      ("Expected " ++ toString expected.length ++ " values, but received "
        ++ toString s.onNextEvents.length ++ ": " ++ strVs s.onNextEvents)
  else assertValuesLoop strV s.onNextEvents 0 expected

/-- Whether the current terminal-event promise has been resolved (its
resolver has been invoked at least once while live). -/
def promiseResolved {V E : Type} (s : TSState V E) : Bool :=
  s.resolveCount ≠ 0

/-- `TestSubscriber.awaitTerminalEvent(timeoutMs)`, embedded over a
discrete event-loop abstraction.  The source races the terminal-event
promise against `sleep(timeoutMs)` followed by
`fail("Timeout waiting for terminal event")`.  `arrival` is the future
instant (in ms from the call) at which the terminal promise would be
resolved, `none` if it never is.  An already-resolved promise wins the
race immediately (microtasks run before any timer).  Otherwise the
promise wins exactly when it resolves strictly before the timeout timer
fires; at `arrival = timeoutMs` the two timers tie and JavaScript's
ordering is registration-dependent, so the tie is settled here one way
and the theorems below avoid relying on it. -/
def awaitTerminalEvent {V E : Type} (s : TSState V E) (arrival : Option Nat)
    (timeoutMs : Nat) : Except String Unit :=
  if promiseResolved s then Except.ok ()
  else
    match arrival with
    | some a =>
        if a < timeoutMs then Except.ok ()
        else Except.error "Timeout waiting for terminal event"
    | none => Except.error "Timeout waiting for terminal event"

/-- `TestSubscriber.reset`: clear values, errors, completions and the
terminal flag, and reinitialize the terminal-event promise/resolver
(fresh promise, live resolver, zero resolutions).  The ghost trace of
past delegate calls is what the delegate has already received and is
not part of the subscriber's state, so it is carried over unchanged. -/
def reset {V E : Type} (s : TSState V E) : TSState V E :=
  { s with
    onNextEvents := []
    errorEvents := []
    completions := 0
    terminalEventReceived := false
    resolverLive := true
    resolveCount := 0 }

/-- A producer-side notification delivered to a subscriber. -/
inductive Event (V E : Type) where
  | value (v : V)
  | failure (e : E)
  | completion
  deriving DecidableEq, Repr

/-- Dispatch one notification to the corresponding public entry point of
the subscriber (`next` / `error` / `complete`), keeping the state. -/
def notify {V E : Type} (s : TSState V E) : Event V E → TSState V E
  | Event.value v => (next s v).1
  | Event.failure e => (error s e).1
  | Event.completion => (complete s).1

/-- The recording-relevant observation of a subscriber state: everything
except the ghost delegate trace and the delegate behaviour itself. -/
def obs {V E : Type} (s : TSState V E) :
    Option Nat × List V × List E × Nat × Bool × Bool × Nat :=
  (s.initialRequest, s.onNextEvents, s.errorEvents, s.completions,
    s.terminalEventReceived, s.resolverLive, s.resolveCount)

/-!
## The `TestObserver<T>` embedding (`src/src/testobserver.ts`)

`TestObserver` stores its event log in a heap-allocated JavaScript
array; `getLogs()` is `return this.logs;`, handing the caller a
reference to that very array.  To make aliasing expressible, the log
contents live in a tiny heap (`OHeap`, array id → contents) and the
observer state holds only the id of its log array.  Every exception a
delegate handler throws propagates to the caller unguarded (there is no
`try`/`catch` in this class), and the contract violations of
`onSubscribe`/`assertSubscribed` are thrown `Error`s; both kinds appear
in `OExn`.
-/

/-- An exception escaping a `TestObserver` method: a contract-violation
`Error` thrown by the class itself, or an exception a delegate handler
threw that the class does not catch. -/
inductive OExn (E : Type) where
  | contract (msg : String)
  | delegated (e : E)
  deriving DecidableEq, Repr

/-- Behaviour of a `DelegateObserver`: for `next`/`error`/`complete`,
whether the call throws; `onSubscribe` and `onSuccess` are optional
methods (`none` = absent), each throwing or not when present. -/
structure ODelegate (V E : Type) where
  nextThrows : V → Option E
  errorThrows : E → Option E
  completeThrows : Option E
  onSubscribeBehaviour : Option (Nat → Option E)
  onSuccessBehaviour : Option (V → Option E)

/-- The heap fragment holding JavaScript arrays of log lines: array id
→ contents.  Ids not in the list are unallocated. -/
abbrev OHeap : Type := List (List String)

/-- Appending one line to the array behind `id` (JavaScript
`array.push(line)` through any reference to it). -/
def heapPush (h : OHeap) (id : Nat) (line : String) : OHeap :=
  h.set id (h.getD id [] ++ [line])

/-- Reading the contents of the array behind `id`. -/
def heapRead (h : OHeap) (id : Nat) : List String :=
  h.getD id []

/-- The state of a `TestObserver<T>` instance.  `logsRef` is the id of
the heap array holding `this.logs`. -/
structure TOState (V E : Type) where
  delegate : Option (ODelegate V E)
  subscription : Option Nat
  disposed : Bool
  logsRef : Nat

/-- `TestObserver.create(delegate?)` together with the allocation of the
instance's fresh, empty `logs` array on the given heap. -/
def mkTO {V E : Type} (delegate : Option (ODelegate V E)) (h : OHeap) :
    TOState V E × OHeap :=
  ({ delegate := delegate
     subscription := none
     disposed := false
     logsRef := h.length },
   h ++ [[]])

/-- `TestObserver.getLogs`: `return this.logs;` — the internal array
reference itself, not a copy. -/
def getLogs {V E : Type} (o : TOState V E) : Nat :=
  o.logsRef

/-- The internal log contents of an observer on a heap. -/
def logsOf {V E : Type} (o : TOState V E) (h : OHeap) : List String :=
  heapRead h o.logsRef

/-- `TestObserver.logEvent`: push a line onto the instance's log array. -/
def logEvent {V E : Type} (o : TOState V E) (h : OHeap) (line : String) : OHeap :=
  heapPush h o.logsRef line

/-- `TestObserver.next`: log the event, then forward to the delegate's
`next` if the delegate exists and defines it; whatever the delegate
throws propagates to the caller. -/
def tobNext {V E : Type} (strV : V → String) (o : TOState V E) (h : OHeap)
    (v : V) : OHeap × Option (OExn E) :=
  let h1 := logEvent o h ("next: " ++ strV v)
  match o.delegate with
  | none => (h1, none)
  | some d =>
      match d.nextThrows v with
      | some e => (h1, some (OExn.delegated e))
      | none => (h1, none)

/-- `TestObserver.error`: log, then forward unguarded. -/
def tobError {V E : Type} (strE : E → String) (o : TOState V E) (h : OHeap)
    (e : E) : OHeap × Option (OExn E) :=
  let h1 := logEvent o h ("error: " ++ strE e)
  match o.delegate with
  | none => (h1, none)
  | some d =>
      match d.errorThrows e with
      | some ex => (h1, some (OExn.delegated ex))
      | none => (h1, none)

/-- `TestObserver.complete`: log, then forward unguarded. -/
def tobComplete {V E : Type} (o : TOState V E) (h : OHeap) :
    OHeap × Option (OExn E) :=
  let h1 := logEvent o h "complete"
  match o.delegate with
  | none => (h1, none)
  | some d =>
      match d.completeThrows with
      | some ex => (h1, some (OExn.delegated ex))
      | none => (h1, none)

/-- `TestObserver.onSubscribe(subscription)`: throw
`"Subscription already set."` when a handle is already held; otherwise
record the handle, log, and forward to the delegate's optional
`onSubscribe` unguarded. -/
def onSubscribe {V E : Type} (o : TOState V E) (h : OHeap) (sub : Nat) :
    TOState V E × OHeap × Option (OExn E) :=
  match o.subscription with
  | some _ => (o, h, some (OExn.contract "Subscription already set."))
  | none =>
      let o1 := { o with subscription := some sub }
      let h1 := logEvent o1 h "onSubscribe: subscription set"
      match o1.delegate with
      | none => (o1, h1, none)
      | some d =>
          match d.onSubscribeBehaviour with
          | none => (o1, h1, none)
          | some beh =>
              match beh sub with
              | some ex => (o1, h1, some (OExn.delegated ex))
              | none => (o1, h1, none)

/-- `TestObserver.assertSubscribed`: throw
`"onSubscribe was not called exactly once."` when no handle was ever
recorded; otherwise return `this`. -/
def assertSubscribed {V E : Type} (o : TOState V E) :
    Except (OExn E) (TOState V E) :=
  match o.subscription with
  | none => Except.error (OExn.contract "onSubscribe was not called exactly once.")
  | some _ => Except.ok o

/-- Synchronous delivery of one producer notification through the
observer's `next`/`error`/`complete` wrappers, as
`observable.subscribe({...})` does for a synchronous observable. -/
def tobDeliver {V E : Type} (strV : V → String) (strE : E → String)
    (o : TOState V E) (h : OHeap) : Event V E → OHeap × Option (OExn E)
  | Event.value v => tobNext strV o h v
  | Event.failure e => tobError strE o h e
  | Event.completion => tobComplete o h

/-- Delivering a list of synchronous notifications in order; an
exception thrown by a handler aborts the remaining deliveries and
propagates (synchronous throw out of `subscribe`). -/
def tobDeliverAll {V E : Type} (strV : V → String) (strE : E → String)
    (o : TOState V E) (h : OHeap) : List (Event V E) → OHeap × Option (OExn E)
  | [] => (h, none)
  | ev :: evs =>
      match tobDeliver strV strE o h ev with
      | (h1, some ex) => (h1, some ex)
      | (h1, none) => tobDeliverAll strV strE o h1 evs

/-- `TestObserver.subscribeTo(observable)` for a synchronous producer
that emits `evs` during `subscribe` and returns the handle `sub`: the
notifications are delivered through the observer's own handlers, then
`onSubscribe(sub)` records the handle. -/
def subscribeTo {V E : Type} (strV : V → String) (strE : E → String)
    (o : TOState V E) (h : OHeap) (evs : List (Event V E)) (sub : Nat) :
    TOState V E × OHeap × Option (OExn E) :=
  match tobDeliverAll strV strE o h evs with
  | (h1, some ex) => (o, h1, some ex)
  | (h1, none) => onSubscribe o h1 sub

/-- The delegate-trace extension of one forwarded call: empty when no
delegate is installed. -/
def traceStep {V E : Type} (delegate : Option (Delegate V E)) (ev : DEvent V E) :
    List (DEvent V E) :=
  match delegate with
  | none => []
  | some _ => [ev]

/-- A delegate whose handlers all return normally; used to instantiate
theorems at concrete inputs. -/
def dIdle : Delegate Nat Nat :=
  { nextThrows := fun _ => none
    errorThrows := fun _ => none
    completeThrows := none }

/-- A delegate whose handlers all throw the exception `7`; used to
instantiate theorems about misbehaving delegates. -/
def dThrow : Delegate Nat Nat :=
  { nextThrows := fun _ => some 7
    errorThrows := fun _ => some 7
    completeThrows := some 7 }

/-- A fresh default subscriber over `Nat` values and `Nat` errors: no
delegate, unlimited demand.  Used to instantiate theorems. -/
def tsFresh : TSState Nat Nat := mkTS none none

/-- A fresh observer over `Nat` values and errors, allocated on the
empty heap, with no delegate. -/
def toFresh : TOState Nat Nat := (mkTO none []).1

/-- The heap after allocating `toFresh`. -/
def toFreshHeap : OHeap := (mkTO (none : Option (ODelegate Nat Nat)) []).2

/-- A `toFresh` observer that has been bound once to handle `1`. -/
def toBound : TOState Nat Nat := (onSubscribe toFresh toFreshHeap 1).1

/-- A throwing delegate observer for `TestObserver` instantiations. -/
def odThrow : ODelegate Nat Nat :=
  { nextThrows := fun _ => some 7
    errorThrows := fun _ => some 7
    completeThrows := some 7
    onSubscribeBehaviour := none
    onSuccessBehaviour := none }

/-- A subscriber whose delegate always throws. -/
def tsThrowDel : TSState Nat Nat := mkTS (some dThrow) none

/-- An observer whose delegate always throws, with its heap. -/
def toThrowDel : TOState Nat Nat := (mkTO (some odThrow) []).1

/-- A subscriber with delegate `dIdle` and demand limit `5` that has
completed once: terminal, demand still open. -/
def tsCompleted : TSState Nat Nat := (complete (mkTS (some dIdle) (some 5))).1

/-!
## Characterization lemmas

Each handler of `TestSubscriber` is a `match` on the optional delegate
and on whether its callback throws; all branches update the recorded
state identically (the `catch` arms only log).  The lemmas below give
each handler's result as a single record update.
-/

lemma onNext_fst {V E : Type} (s : TSState V E) (v : V) :
    (onNext s v).1 =
      { s with
        onNextEvents := s.onNextEvents ++ [v]
        delegateTrace := s.delegateTrace ++ traceStep s.delegate (DEvent.dnext v) } := by
  unfold onNext traceStep
  cases hd : s.delegate with
  | none => simp
  | some d => cases h2 : d.nextThrows v <;> simp [h2]

lemma onNext_snd {V E : Type} (s : TSState V E) (v : V) :
    (onNext s v).2 = none := by
  unfold onNext
  cases hd : s.delegate with
  | none => rfl
  | some d => cases h2 : d.nextThrows v <;> simp [h2]

lemma onError_fst {V E : Type} (s : TSState V E) (e : E) :
    (onError s e).1 =
      fireResolver
        { s with
          errorEvents := s.errorEvents ++ [e]
          terminalEventReceived := true
          delegateTrace := s.delegateTrace ++ traceStep s.delegate (DEvent.derror e) } := by
  unfold onError traceStep
  cases hd : s.delegate with
  | none => simp
  | some d => cases h2 : d.errorThrows e <;> simp [h2]

lemma onError_snd {V E : Type} (s : TSState V E) (e : E) :
    (onError s e).2 = none := by
  unfold onError
  cases hd : s.delegate with
  | none => rfl
  | some d => cases h2 : d.errorThrows e <;> simp [h2]

lemma onCompleted_fst {V E : Type} (s : TSState V E) :
    (onCompleted s).1 =
      fireResolver
        { s with
          completions := s.completions + 1
          terminalEventReceived := true
          delegateTrace := s.delegateTrace ++ traceStep s.delegate DEvent.dcomplete } := by
  unfold onCompleted traceStep
  cases hd : s.delegate with
  | none => simp
  | some d => cases h2 : d.completeThrows <;> simp [h2]

lemma onCompleted_snd {V E : Type} (s : TSState V E) :
    (onCompleted s).2 = none := by
  unfold onCompleted
  cases hd : s.delegate with
  | none => rfl
  | some d => cases h2 : d.completeThrows <;> simp [h2]

lemma demandOpen_some {V E : Type} (s : TSState V E) (L : Nat)
    (h : s.initialRequest = some L) :
    demandOpen s = decide (s.onNextEvents.length < L) := by
  unfold demandOpen
  rw [h]

/-- Values recorded by a run of `next` calls under a finite demand
limit: the prefix of the arrivals that fits in the remaining demand is
appended, the rest is dropped. -/
lemma nextAll_onNextEvents {V E : Type} (L : Nat) :
    ∀ (vs : List V) (s : TSState V E), s.initialRequest = some L →
      (nextAll s vs).onNextEvents
        = s.onNextEvents ++ vs.take (L - s.onNextEvents.length) := by
  intro vs
  induction vs with
  | nil => intro s h; simp [nextAll]
  | cons v vs ih =>
      intro s h
      rw [nextAll, next]
      by_cases hlt : s.onNextEvents.length < L
      · rw [if_pos (by rw [demandOpen_some s L h]; exact decide_eq_true hlt)]
        rw [ih (onNext s v).1 (by rw [onNext_fst]; exact h)]
        rw [onNext_fst]
        have hL : L - s.onNextEvents.length
            = ((L - (s.onNextEvents ++ [v]).length) + 1) := by
          simp only [List.length_append, List.length_cons, List.length_nil]
          omega
        simp only [hL, List.take_succ_cons, List.append_assoc, List.cons_append,
          List.nil_append, List.singleton_append]
      · rw [if_neg (by rw [demandOpen_some s L h]; simp [hlt])]
        rw [ih s h]
        have hL : L - s.onNextEvents.length = 0 := by omega
        simp [hL]

/-- Delegate calls issued by a run of `next` calls under a finite
demand limit, when a delegate is installed: exactly the retained prefix
is forwarded, in order. -/
lemma nextAll_delegateTrace {V E : Type} (L : Nat) (d : Delegate V E) :
    ∀ (vs : List V) (s : TSState V E), s.initialRequest = some L →
      s.delegate = some d →
      (nextAll s vs).delegateTrace
        = s.delegateTrace
          ++ (vs.take (L - s.onNextEvents.length)).map DEvent.dnext := by
  intro vs
  induction vs with
  | nil => intro s h hd; simp [nextAll]
  | cons v vs ih =>
      intro s h hd
      rw [nextAll, next]
      by_cases hlt : s.onNextEvents.length < L
      · rw [if_pos (by rw [demandOpen_some s L h]; exact decide_eq_true hlt)]
        rw [ih (onNext s v).1 (by rw [onNext_fst]; exact h)
          (by rw [onNext_fst]; exact hd)]
        rw [onNext_fst]
        have hL : L - s.onNextEvents.length
            = ((L - (s.onNextEvents ++ [v]).length) + 1) := by
          simp only [List.length_append, List.length_cons, List.length_nil]
          omega
        simp only [hL, List.take_succ_cons, List.map_cons, List.append_assoc,
          List.cons_append, List.nil_append, List.singleton_append, traceStep, hd]
      · rw [if_neg (by rw [demandOpen_some s L h]; simp [hlt])]
        rw [ih s h hd]
        have hL : L - s.onNextEvents.length = 0 := by omega
        simp [hL]

/-- C1: a subscriber built with finite demand limit `L` that receives
`M > L` values through `next` records exactly the first `L` arrivals,
in arrival order, forwards exactly those to the delegate, drops the
remaining `M - L`, and at no prefix of the run does the recorded list
grow past `L`. -/
theorem C1_demand_limit {V E : Type} (L : Nat) (d : Delegate V E)
    (vs : List V) (hM : L < vs.length) :
    (nextAll (mkTS (some d) (some L)) vs).onNextEvents = vs.take L
    ∧ (nextAll (mkTS (some d) (some L)) vs).onNextEvents.length = L
    ∧ (nextAll (mkTS (some d) (some L)) vs).delegateTrace
        = (vs.take L).map DEvent.dnext
    ∧ ∀ t : Nat,
        (nextAll (mkTS (some d) (some L)) (vs.take t)).onNextEvents.length ≤ L := by
  have e1 : (mkTS (some d) (some L) : TSState V E).onNextEvents = [] := rfl
  have e2 : (mkTS (some d) (some L) : TSState V E).delegateTrace = [] := rfl
  have hvals := nextAll_onNextEvents L vs (mkTS (some d) (some L)) rfl
  have htrace := nextAll_delegateTrace L d vs (mkTS (some d) (some L)) rfl rfl
  simp only [e1, e2, List.nil_append, List.length_nil, Nat.sub_zero] at hvals htrace
  refine ⟨hvals, ?_, htrace, ?_⟩
  · rw [hvals, List.length_take]
    omega
  · intro t
    have h := nextAll_onNextEvents L (vs.take t) (mkTS (some d) (some L)) rfl
    simp only [e1, List.nil_append, List.length_nil, Nat.sub_zero] at h
    rw [h, List.length_take]
    omega

/-- Witness for C1 at `L = 2`, arrivals `[10, 20, 30]`. -/
theorem C1_demand_limit_witness :
    2 < ([10, 20, 30] : List Nat).length
    ∧ ((nextAll (mkTS (some dIdle) (some 2)) [10, 20, 30]).onNextEvents
          = ([10, 20, 30] : List Nat).take 2
        ∧ (nextAll (mkTS (some dIdle) (some 2)) [10, 20, 30]).onNextEvents.length = 2
        ∧ (nextAll (mkTS (some dIdle) (some 2)) [10, 20, 30]).delegateTrace
            = (([10, 20, 30] : List Nat).take 2).map DEvent.dnext
        ∧ ∀ t : Nat,
            (nextAll (mkTS (some dIdle) (some 2))
              (([10, 20, 30] : List Nat).take t)).onNextEvents.length ≤ 2) :=
  ⟨by decide, C1_demand_limit 2 dIdle [10, 20, 30] (by decide)⟩

lemma fireResolver_of_live {V E : Type} (s : TSState V E)
    (h : s.resolverLive = true) :
    fireResolver s = { s with resolveCount := s.resolveCount + 1, resolverLive := false } := by
  unfold fireResolver
  rw [if_pos h]

lemma fireResolver_of_dead {V E : Type} (s : TSState V E)
    (h : s.resolverLive = false) :
    fireResolver s = s := by
  unfold fireResolver
  rw [if_neg (by rw [h]; exact Bool.false_ne_true)]

lemma fireResolver_resolverLive {V E : Type} (s : TSState V E) :
    (fireResolver s).resolverLive = false := by
  cases h : s.resolverLive
  · rw [fireResolver_of_dead s h, h]
  · rw [fireResolver_of_live s h]

/-- C2: on a subscriber whose termination-wait signal is still pending,
`error(cause)` appends the cause to the error list and sets the
terminal flag, `complete()` increments the completion counter and sets
the terminal flag — whatever the demand limit and however many values
were already processed — and either of them resolves the pending signal
exactly once: the resolution count rises by one, the resolver is
replaced by a no-op, and a second terminal notification (in either
order) leaves the resolution count at that same value. -/
theorem C2_terminal_events {V E : Type} (s : TSState V E) (e : E) :
    (error s e).1.errorEvents = s.errorEvents ++ [e]
    ∧ (error s e).1.terminalEventReceived = true
    ∧ (complete s).1.completions = s.completions + 1
    ∧ (complete s).1.terminalEventReceived = true
    ∧ (s.resolverLive = true →
        (error s e).1.resolveCount = s.resolveCount + 1
        ∧ (error s e).1.resolverLive = false
        ∧ (complete s).1.resolveCount = s.resolveCount + 1
        ∧ (complete s).1.resolverLive = false
        ∧ (complete (error s e).1).1.resolveCount = s.resolveCount + 1
        ∧ (error (complete s).1 e).1.resolveCount = s.resolveCount + 1) := by
  refine ⟨?_, ?_, ?_, ?_, ?_⟩
  · unfold error onError fireResolver
    cases hd : s.delegate with
    | none => cases hres : s.resolverLive <;> simp [hres]
    | some d =>
        cases h1 : d.errorThrows e <;> cases hres : s.resolverLive <;>
          simp [h1, hres]
  · unfold error onError fireResolver
    cases hd : s.delegate with
    | none => cases hres : s.resolverLive <;> simp [hres]
    | some d =>
        cases h1 : d.errorThrows e <;> cases hres : s.resolverLive <;>
          simp [h1, hres]
  · unfold complete onCompleted fireResolver
    cases hd : s.delegate with
    | none => cases hres : s.resolverLive <;> simp [hres]
    | some d =>
        cases h2 : d.completeThrows <;> cases hres : s.resolverLive <;>
          simp [h2, hres]
  · unfold complete onCompleted fireResolver
    cases hd : s.delegate with
    | none => cases hres : s.resolverLive <;> simp [hres]
    | some d =>
        cases h2 : d.completeThrows <;> cases hres : s.resolverLive <;>
          simp [h2, hres]
  · intro hlive
    unfold error complete onError onCompleted fireResolver
    cases hd : s.delegate with
    | none => simp [hlive]
    | some d =>
        cases h1 : d.errorThrows e <;> cases h2 : d.completeThrows <;>
          simp [hlive, h1, h2]

/-- Witness for C2 on a fresh subscriber, error cause `5`, with the
pending-resolver implication discharged there. -/
theorem C2_terminal_events_witness :
    ((error tsFresh 5).1.errorEvents = tsFresh.errorEvents ++ [5]
      ∧ (error tsFresh 5).1.terminalEventReceived = true
      ∧ (complete tsFresh).1.completions = tsFresh.completions + 1
      ∧ (complete tsFresh).1.terminalEventReceived = true
      ∧ (tsFresh.resolverLive = true →
          (error tsFresh 5).1.resolveCount = tsFresh.resolveCount + 1
          ∧ (error tsFresh 5).1.resolverLive = false
          ∧ (complete tsFresh).1.resolveCount = tsFresh.resolveCount + 1
          ∧ (complete tsFresh).1.resolverLive = false
          ∧ (complete (error tsFresh 5).1).1.resolveCount = tsFresh.resolveCount + 1
          ∧ (error (complete tsFresh).1 5).1.resolveCount = tsFresh.resolveCount + 1))
    ∧ ((error tsFresh 5).1.resolveCount = tsFresh.resolveCount + 1
        ∧ (error tsFresh 5).1.resolverLive = false
        ∧ (complete tsFresh).1.resolveCount = tsFresh.resolveCount + 1
        ∧ (complete tsFresh).1.resolverLive = false
        ∧ (complete (error tsFresh 5).1).1.resolveCount = tsFresh.resolveCount + 1
        ∧ (error (complete tsFresh).1 5).1.resolveCount = tsFresh.resolveCount + 1) :=
  ⟨C2_terminal_events tsFresh 5, (C2_terminal_events tsFresh 5).2.2.2.2 rfl⟩

/-!
Helper lemmas on how the terminal handlers treat the resolver, shared
by the theorems about termination waiting.
-/

lemma error_resolveCount_of_live {V E : Type} (s : TSState V E) (e : E)
    (hlive : s.resolverLive = true) :
    (error s e).1.resolveCount = s.resolveCount + 1 := by
  unfold error onError fireResolver
  cases hd : s.delegate with
  | none => simp [hlive]
  | some d => cases h1 : d.errorThrows e <;> simp [hlive, h1]

lemma complete_resolveCount_of_live {V E : Type} (s : TSState V E)
    (hlive : s.resolverLive = true) :
    (complete s).1.resolveCount = s.resolveCount + 1 := by
  unfold complete onCompleted fireResolver
  cases hd : s.delegate with
  | none => simp [hlive]
  | some d => cases h2 : d.completeThrows <;> simp [hlive, h2]

lemma error_resolveCount_of_dead {V E : Type} (s : TSState V E) (e : E)
    (hdead : s.resolverLive = false) :
    (error s e).1.resolveCount = s.resolveCount := by
  unfold error onError fireResolver
  cases hd : s.delegate with
  | none => simp [hdead]
  | some d => cases h1 : d.errorThrows e <;> simp [hdead, h1]

lemma complete_resolveCount_of_dead {V E : Type} (s : TSState V E)
    (hdead : s.resolverLive = false) :
    (complete s).1.resolveCount = s.resolveCount := by
  unfold complete onCompleted fireResolver
  cases hd : s.delegate with
  | none => simp [hdead]
  | some d => cases h2 : d.completeThrows <;> simp [hdead, h2]

lemma error_resolverLive_false {V E : Type} (s : TSState V E) (e : E) :
    (error s e).1.resolverLive = false := by
  have h := onError_fst s e
  rw [error, h, fireResolver_resolverLive]

lemma complete_resolverLive_false {V E : Type} (s : TSState V E) :
    (complete s).1.resolverLive = false := by
  have h := onCompleted_fst s
  rw [complete, h, fireResolver_resolverLive]

lemma promiseResolved_iff {V E : Type} (s : TSState V E) :
    promiseResolved s = true ↔ s.resolveCount ≠ 0 := by
  simp [promiseResolved]

/-- C3: `awaitTerminalEvent(timeoutMs)` resolves once a terminal
notification has been recorded — immediately when the terminal promise
was already resolved before the call, and in particular right after an
`error` or `complete` consumed the pending resolver — the underlying
signal resolves at most once even when both an error and a completion
occur, and when the promise is unresolved and no terminal resolution
arrives within `timeoutMs` the call fails with exactly
"Timeout waiting for terminal event". -/
theorem C3_await_terminal_event {V E : Type} (s : TSState V E) (e : E)
    (arrival : Option Nat) (timeoutMs : Nat) :
    (promiseResolved s = true → awaitTerminalEvent s arrival timeoutMs = Except.ok ())
    ∧ (∀ a : Nat, arrival = some a → a < timeoutMs →
        awaitTerminalEvent s arrival timeoutMs = Except.ok ())
    ∧ (s.resolverLive = true →
        promiseResolved (error s e).1 = true
        ∧ awaitTerminalEvent (error s e).1 arrival timeoutMs = Except.ok ()
        ∧ promiseResolved (complete s).1 = true
        ∧ awaitTerminalEvent (complete s).1 arrival timeoutMs = Except.ok ())
    ∧ (s.resolverLive = true → s.resolveCount = 0 →
        (complete (error s e).1).1.resolveCount = 1
        ∧ (error (complete s).1 e).1.resolveCount = 1)
    ∧ (promiseResolved s = false →
        (∀ a : Nat, arrival = some a → timeoutMs < a) →
        awaitTerminalEvent s arrival timeoutMs
          = Except.error "Timeout waiting for terminal event") := by
  refine ⟨?_, ?_, ?_, ?_, ?_⟩
  · intro h
    unfold awaitTerminalEvent
    rw [if_pos h]
  · intro a ha hlt
    unfold awaitTerminalEvent
    by_cases h : promiseResolved s = true
    · rw [if_pos h]
    · rw [if_neg h, ha]
      show (if a < timeoutMs then (Except.ok () : Except String Unit)
          else Except.error "Timeout waiting for terminal event") = Except.ok ()
      rw [if_pos hlt]
  · intro hlive
    have he : promiseResolved (error s e).1 = true := by
      rw [promiseResolved_iff, error_resolveCount_of_live s e hlive]
      omega
    have hc : promiseResolved (complete s).1 = true := by
      rw [promiseResolved_iff, complete_resolveCount_of_live s hlive]
      omega
    exact ⟨he, by unfold awaitTerminalEvent; rw [if_pos he], hc,
      by unfold awaitTerminalEvent; rw [if_pos hc]⟩
  · intro hlive hzero
    constructor
    · rw [complete_resolveCount_of_dead _ (error_resolverLive_false s e),
        error_resolveCount_of_live s e hlive, hzero]
    · rw [error_resolveCount_of_dead _ e (complete_resolverLive_false s),
        complete_resolveCount_of_live s hlive, hzero]
  · intro hnr hlate
    unfold awaitTerminalEvent
    rw [if_neg (by rw [hnr]; exact Bool.false_ne_true)]
    cases ha : arrival with
    | none => rfl
    | some a =>
        have hta := hlate a ha
        show (if a < timeoutMs then (Except.ok () : Except String Unit)
            else Except.error "Timeout waiting for terminal event")
          = Except.error "Timeout waiting for terminal event"
        rw [if_neg (lt_asymm hta)]

/-- Witness for C3: a fresh subscriber that has just received an error
resolves immediately; a fresh one with no terminal arrival within the
timeout fails with the timeout message. -/
theorem C3_await_terminal_event_witness :
    ((error tsFresh 5).1.resolveCount ≠ 0
      → awaitTerminalEvent (error tsFresh 5).1 none 100 = Except.ok ())
    ∧ (tsFresh.resolverLive = true →
        promiseResolved (error tsFresh 5).1 = true
        ∧ awaitTerminalEvent (error tsFresh 5).1 none 100 = Except.ok ()
        ∧ promiseResolved (complete tsFresh).1 = true
        ∧ awaitTerminalEvent (complete tsFresh).1 none 100 = Except.ok ())
    ∧ (promiseResolved tsFresh = false →
        (∀ a : Nat, (none : Option Nat) = some a → 100 < a) →
        awaitTerminalEvent tsFresh none 100
          = Except.error "Timeout waiting for terminal event") :=
  ⟨fun _ => ((C3_await_terminal_event (error tsFresh 5).1 5 none 100).1
      (by rw [promiseResolved_iff]; decide)),
    (C3_await_terminal_event tsFresh 5 none 100).2.2.1,
    (C3_await_terminal_event tsFresh 5 none 100).2.2.2.2⟩

lemma fireResolver_completions {V E : Type} (s : TSState V E) :
    (fireResolver s).completions = s.completions := by
  unfold fireResolver
  by_cases h : s.resolverLive = true
  · rw [if_pos h]
  · rw [if_neg h]

lemma fireResolver_errorEvents {V E : Type} (s : TSState V E) :
    (fireResolver s).errorEvents = s.errorEvents := by
  unfold fireResolver
  by_cases h : s.resolverLive = true
  · rw [if_pos h]
  · rw [if_neg h]

lemma fireResolver_terminal {V E : Type} (s : TSState V E) :
    (fireResolver s).terminalEventReceived = s.terminalEventReceived := by
  unfold fireResolver
  by_cases h : s.resolverLive = true
  · rw [if_pos h]
  · rw [if_neg h]

lemma fireResolver_onNextEvents {V E : Type} (s : TSState V E) :
    (fireResolver s).onNextEvents = s.onNextEvents := by
  unfold fireResolver
  by_cases h : s.resolverLive = true
  · rw [if_pos h]
  · rw [if_neg h]

lemma error_completions {V E : Type} (s : TSState V E) (e : E) :
    (error s e).1.completions = s.completions := by
  rw [error, onError_fst s e, fireResolver_completions]

lemma error_errorEvents {V E : Type} (s : TSState V E) (e : E) :
    (error s e).1.errorEvents = s.errorEvents ++ [e] := by
  rw [error, onError_fst s e, fireResolver_errorEvents]

lemma error_terminal {V E : Type} (s : TSState V E) (e : E) :
    (error s e).1.terminalEventReceived = true := by
  rw [error, onError_fst s e, fireResolver_terminal]

lemma error_onNextEvents {V E : Type} (s : TSState V E) (e : E) :
    (error s e).1.onNextEvents = s.onNextEvents := by
  rw [error, onError_fst s e, fireResolver_onNextEvents]

lemma complete_completions {V E : Type} (s : TSState V E) :
    (complete s).1.completions = s.completions + 1 := by
  rw [complete, onCompleted_fst s, fireResolver_completions]

lemma complete_errorEvents {V E : Type} (s : TSState V E) :
    (complete s).1.errorEvents = s.errorEvents := by
  rw [complete, onCompleted_fst s, fireResolver_errorEvents]

lemma complete_terminal {V E : Type} (s : TSState V E) :
    (complete s).1.terminalEventReceived = true := by
  rw [complete, onCompleted_fst s, fireResolver_terminal]

lemma complete_onNextEvents {V E : Type} (s : TSState V E) :
    (complete s).1.onNextEvents = s.onNextEvents := by
  rw [complete, onCompleted_fst s, fireResolver_onNextEvents]

/-!
## Claims about `TestObserver` binding (C4) and `assertCompleted` (C6)
-/

lemma onSubscribe_already {V E : Type} (o : TOState V E) (h : OHeap)
    (sub h0 : Nat) (hs : o.subscription = some h0) :
    onSubscribe o h sub = (o, h, some (OExn.contract "Subscription already set.")) := by
  unfold onSubscribe
  rw [hs]

lemma onSubscribe_fresh_subscription {V E : Type} (o : TOState V E) (h : OHeap)
    (sub : Nat) (hs : o.subscription = none) :
    (onSubscribe o h sub).1.subscription = some sub := by
  unfold onSubscribe
  rw [hs]
  cases hd : o.delegate with
  | none => simp [hd]
  | some d =>
      cases hb : d.onSubscribeBehaviour with
      | none => simp [hd, hb]
      | some beh => cases hbs : beh sub <;> simp [hd, hb, hbs]

lemma assertSubscribed_of_some {V E : Type} (o : TOState V E) (n : Nat)
    (hs : o.subscription = some n) :
    assertSubscribed o = Except.ok o := by
  unfold assertSubscribed
  rw [hs]

lemma assertSubscribed_of_none {V E : Type} (o : TOState V E)
    (hs : o.subscription = none) :
    assertSubscribed o
      = Except.error (OExn.contract "onSubscribe was not called exactly once.") := by
  unfold assertSubscribed
  rw [hs]

/-- C4: binding a subscription handle on an observer that already holds
one — directly via `onSubscribe` or through a second `subscribeTo` —
throws the contract-violation error "Subscription already set.", while
on a fresh observer one `onSubscribe` records the handle, after which
`assertSubscribed` succeeds and returns the same instance;
`assertSubscribed` before any binding throws. -/
theorem C4_single_binding {V E : Type} (strV : V → String) (strE : E → String)
    (o : TOState V E) (h : OHeap) (sub h0 : Nat) (evs : List (Event V E))
    (hheld : o.subscription = some h0) :
    (onSubscribe o h sub).2.2 = some (OExn.contract "Subscription already set.")
    ∧ ((tobDeliverAll strV strE o h evs).2 = none →
        (subscribeTo strV strE o h evs sub).2.2
          = some (OExn.contract "Subscription already set."))
    ∧ (∀ o' : TOState V E, ∀ h' : OHeap, o'.subscription = none →
        (onSubscribe o' h' sub).1.subscription = some sub
        ∧ assertSubscribed (onSubscribe o' h' sub).1
            = Except.ok ((onSubscribe o' h' sub).1)
        ∧ assertSubscribed o'
            = Except.error (OExn.contract "onSubscribe was not called exactly once.")) := by
  refine ⟨?_, ?_, ?_⟩
  · rw [onSubscribe_already o h sub h0 hheld]
  · intro hdel
    unfold subscribeTo
    rcases hda : tobDeliverAll strV strE o h evs with ⟨h1, ex⟩
    rw [hda] at hdel
    simp only at hdel
    rw [hdel]
    simp only
    rw [onSubscribe_already o h1 sub h0 hheld]
  · intro o' h' hs
    have hrec := onSubscribe_fresh_subscription o' h' sub hs
    exact ⟨hrec, assertSubscribed_of_some _ sub hrec,
      assertSubscribed_of_none _ hs⟩

/-- Witness for C4: `toBound` holds handle `1`; a second bind and a
second `subscribeTo` both throw, a fresh bind succeeds. -/
theorem C4_single_binding_witness :
    toBound.subscription = some 1
    ∧ ((onSubscribe toBound toFreshHeap 2).2.2
          = some (OExn.contract "Subscription already set.")
      ∧ ((tobDeliverAll toString toString toBound toFreshHeap
            ([Event.value 3] : List (Event Nat Nat))).2 = none →
          (subscribeTo toString toString toBound toFreshHeap [Event.value 3] 2).2.2
            = some (OExn.contract "Subscription already set."))
      ∧ (∀ o' : TOState Nat Nat, ∀ h' : OHeap, o'.subscription = none →
          (onSubscribe o' h' 2).1.subscription = some 2
          ∧ assertSubscribed (onSubscribe o' h' 2).1
              = Except.ok ((onSubscribe o' h' 2).1)
          ∧ assertSubscribed o'
              = Except.error (OExn.contract "onSubscribe was not called exactly once."))) :=
  ⟨rfl, C4_single_binding toString toString toBound toFreshHeap 2 1 [Event.value 3] rfl⟩

/-- C6: `assertCompleted` throws exactly when the completion counter is
not 1; after a stream that errored without completing (counter still 0)
it throws with the exact message
"Expected exactly 1 completion event, but received 0", and after two
`complete()` calls the counter is 2 and it also throws. -/
theorem C6_assert_completed {V E : Type} (s : TSState V E) (e : E) :
    ((∃ msg : String, assertCompleted s = Except.error msg) ↔ s.completions ≠ 1)
    ∧ (s.completions = 1 → assertCompleted s = Except.ok ())
    ∧ (s.completions = 0 →
        (error s e).1.completions = 0
        ∧ assertCompleted (error s e).1
            = Except.error "Expected exactly 1 completion event, but received 0"
        ∧ (complete (complete s).1).1.completions = 2
        ∧ (∃ msg : String, assertCompleted (complete (complete s).1).1
            = Except.error msg)) := by
  refine ⟨?_, ?_, ?_⟩
  · constructor
    · intro ⟨msg, hmsg⟩ h1
      unfold assertCompleted at hmsg
      rw [if_neg (by simp [h1])] at hmsg
      exact Except.noConfusion hmsg
    · intro h1
      exact ⟨_, by unfold assertCompleted; rw [if_pos h1]⟩
  · intro h1
    unfold assertCompleted
    rw [if_neg (by omega)]
  · intro h0
    have herr : (error s e).1.completions = 0 := by
      rw [error_completions s e, h0]
    have hcc : (complete (complete s).1).1.completions = 2 := by
      rw [complete_completions, complete_completions, h0]
    refine ⟨herr, ?_, hcc, ?_⟩
    · unfold assertCompleted
      rw [if_pos (by rw [herr]; omega)]
      rw [herr]
      rfl
    · exact ⟨_, by unfold assertCompleted; rw [if_pos (by rw [hcc]; omega)]⟩

/-- Witness for C6: the fresh subscriber (counter 0) with error cause
`3` discharges the errored-stream implication, and a once-completed
subscriber (counter exactly 1) discharges the does-not-throw
implication. -/
theorem C6_assert_completed_witness :
    (((∃ msg : String, assertCompleted tsFresh = Except.error msg)
        ↔ tsFresh.completions ≠ 1)
      ∧ (tsFresh.completions = 1 → assertCompleted tsFresh = Except.ok ())
      ∧ (tsFresh.completions = 0 →
          (error tsFresh 3).1.completions = 0
          ∧ assertCompleted (error tsFresh 3).1
              = Except.error "Expected exactly 1 completion event, but received 0"
          ∧ (complete (complete tsFresh).1).1.completions = 2
          ∧ (∃ msg : String, assertCompleted (complete (complete tsFresh).1).1
              = Except.error msg)))
    ∧ tsFresh.completions = 0
    ∧ ((error tsFresh 3).1.completions = 0
      ∧ assertCompleted (error tsFresh 3).1
          = Except.error "Expected exactly 1 completion event, but received 0"
      ∧ (complete (complete tsFresh).1).1.completions = 2
      ∧ (∃ msg : String, assertCompleted (complete (complete tsFresh).1).1
          = Except.error msg))
    ∧ (complete tsFresh).1.completions = 1
    ∧ assertCompleted (complete tsFresh).1 = Except.ok () :=
  ⟨C6_assert_completed tsFresh 3, rfl,
    (C6_assert_completed tsFresh 3).2.2 rfl, rfl,
    (C6_assert_completed (complete tsFresh).1 3).2.1 rfl⟩

/-!
## C5: `assertValues`
-/

lemma getD_default_irrel {V : Type} (l : List V) (n : Nat) (d1 d2 : V)
    (h : n < l.length) : l.getD n d1 = l.getD n d2 := by
  rw [List.getD_eq_getElem l d1 h, List.getD_eq_getElem l d2 h]

/-- The element loop accepts exactly when every expected element's
serialisation matches the recorded element at the same (offset) index. -/
lemma assertValuesLoop_ok_iff {V : Type} (strV : V → String) (recorded : List V)
    (dref : V) :
    ∀ (exp : List V) (k : Nat), k + exp.length ≤ recorded.length →
      (assertValuesLoop strV recorded k exp = Except.ok ()
        ↔ ∀ j : Nat, j < exp.length →
            strV (recorded.getD (k + j) dref) = strV (exp.getD j dref)) := by
  intro exp
  induction exp with
  | nil =>
      intro k hk
      simp [assertValuesLoop]
  | cons v rest ih =>
      intro k hk
      have hkr : k < recorded.length := by
        simp only [List.length_cons] at hk
        omega
      have hdflt : recorded.getD k v = recorded.getD k dref :=
        getD_default_irrel recorded k v dref hkr
      simp only [assertValuesLoop]
      by_cases hhead : strV (recorded.getD k v) = strV v
      · rw [if_pos hhead]
        rw [ih (k + 1) (by simp only [List.length_cons] at hk; omega)]
        constructor
        · intro hall j hj
          cases j with
          | zero =>
              simp only [Nat.add_zero, List.getD_cons_zero]
              rw [← hdflt]
              exact hhead
          | succ j =>
              have hj2 : j < rest.length := by
                simp only [List.length_cons] at hj
                omega
              have := hall j hj2
              have harith : k + 1 + j = k + (j + 1) := by omega
              rw [harith] at this
              simpa [List.getD_cons_succ] using this
        · intro hall j hj
          have hj2 : j + 1 < (v :: rest).length := by
            simp only [List.length_cons]
            omega
          have := hall (j + 1) hj2
          have harith : k + (j + 1) = k + 1 + j := by omega
          rw [harith] at this
          simpa [List.getD_cons_succ] using this
      · rw [if_neg hhead]
        constructor
        · intro habs
          exact absurd habs (by simp)
        · intro hall
          exfalso
          apply hhead
          have h0 := hall 0 (by simp)
          rw [hdflt]
          simpa [List.getD_cons_zero] using h0

/-- On the first offending index, the element loop throws the mismatch
message naming that index. -/
lemma assertValuesLoop_first_mismatch {V : Type} (strV : V → String)
    (recorded : List V) (dref : V) :
    ∀ (exp : List V) (k i : Nat), k + exp.length ≤ recorded.length →
      i < exp.length →
      (∀ j : Nat, j < i → strV (recorded.getD (k + j) dref) = strV (exp.getD j dref)) →
      strV (recorded.getD (k + i) dref) ≠ strV (exp.getD i dref) →
      assertValuesLoop strV recorded k exp
        = Except.error ("Value mismatch at index " ++ toString (k + i)
            ++ ": expected " ++ strV (exp.getD i dref) ++ ", but received "
            ++ strV (recorded.getD (k + i) dref)) := by
  intro exp
  induction exp with
  | nil =>
      intro k i hk hi
      simp at hi
  | cons v rest ih =>
      intro k i hk hi hfirst hmis
      have hkr : k < recorded.length := by
        simp only [List.length_cons] at hk
        omega
      have hdflt : recorded.getD k v = recorded.getD k dref :=
        getD_default_irrel recorded k v dref hkr
      simp only [assertValuesLoop]
      cases i with
      | zero =>
          have hne : ¬ strV (recorded.getD k v) = strV v := by
            rw [hdflt]
            simpa [List.getD_cons_zero] using hmis
          rw [if_neg hne]
          simp only [List.getD_cons_zero, Nat.add_zero]
          rw [hdflt]
      | succ i =>
          have hhead : strV (recorded.getD k v) = strV v := by
            have h0 := hfirst 0 (by omega)
            rw [hdflt]
            simpa [List.getD_cons_zero] using h0
          rw [if_pos hhead]
          have hrec := ih (k + 1) i
            (by simp only [List.length_cons] at hk; omega)
            (by simp only [List.length_cons] at hi; omega)
            (fun j hj => by
              have := hfirst (j + 1) (by omega)
              have harith : k + (j + 1) = k + 1 + j := by omega
              rw [harith] at this
              simpa [List.getD_cons_succ] using this)
            (by
              have harith : k + (i + 1) = k + 1 + i := by omega
              rw [harith] at hmis
              simpa [List.getD_cons_succ] using hmis)
          have harith : k + 1 + i = k + (i + 1) := by omega
          rw [harith] at hrec
          simpa [List.getD_cons_succ] using hrec

/-- Serialisation-image equality of two lists, phrased index-wise. -/
lemma map_str_eq_iff {V : Type} (strV : V → String) (dref : V) (l1 l2 : List V) :
    l1.map strV = l2.map strV
      ↔ (l1.length = l2.length
          ∧ ∀ j : Nat, j < l2.length →
              strV (l1.getD j dref) = strV (l2.getD j dref)) := by
  constructor
  · intro h
    have hlen : l1.length = l2.length := by
      simpa using congrArg List.length h
    refine ⟨hlen, fun j hj => ?_⟩
    calc strV (l1.getD j dref)
        = (l1.map strV).getD j (strV dref) := (List.getD_map l1 dref strV).symm
      _ = (l2.map strV).getD j (strV dref) := by rw [h]
      _ = strV (l2.getD j dref) := List.getD_map l2 dref strV
  · intro hand
    apply List.ext_get (by simpa using hand.1)
    intro n h1m h2m
    have h1 : n < l1.length := by simpa using h1m
    have h2 : n < l2.length := by simpa using h2m
    have := hand.2 n h2
    rw [List.getD_eq_get l1 dref h1, List.getD_eq_get l2 dref h2] at this
    rw [List.get_map, List.get_map]
    exact this

/-- C5: `assertValues(expected...)` succeeds exactly when the recorded
sequence has the same length as `expected` and is element-wise
deep-equal to it (equal serialisation images); a length mismatch is
reported first with the count message, and otherwise the error names
the first offending index with its expected and received elements. -/
theorem C5_assert_values {V E : Type} (strV : V → String) (strVs : List V → String)
    (s : TSState V E) (expected : List V) (dref : V) :
    (assertValues strV strVs s expected = Except.ok ()
      ↔ s.onNextEvents.map strV = expected.map strV)
    ∧ (s.onNextEvents.length ≠ expected.length →
        assertValues strV strVs s expected
          = Except.error ("Expected " ++ toString expected.length
              ++ " values, but received " ++ toString s.onNextEvents.length
              ++ ": " ++ strVs s.onNextEvents))
    ∧ (∀ i : Nat, s.onNextEvents.length = expected.length →
        i < expected.length →
        (∀ j : Nat, j < i →
          strV (s.onNextEvents.getD j dref) = strV (expected.getD j dref)) →
        strV (s.onNextEvents.getD i dref) ≠ strV (expected.getD i dref) →
        assertValues strV strVs s expected
          = Except.error ("Value mismatch at index " ++ toString i
              ++ ": expected " ++ strV (expected.getD i dref)
              ++ ", but received " ++ strV (s.onNextEvents.getD i dref))) := by
  refine ⟨?_, ?_, ?_⟩
  · by_cases hlen : s.onNextEvents.length = expected.length
    · unfold assertValues
      rw [if_neg (by omega)]
      rw [assertValuesLoop_ok_iff strV s.onNextEvents dref expected 0 (by omega)]
      rw [map_str_eq_iff strV dref]
      constructor
      · intro hall
        exact ⟨hlen, fun j hj => by simpa using hall j hj⟩
      · intro hand j hj
        simpa using hand.2 j hj
    · unfold assertValues
      rw [if_pos (by omega)]
      constructor
      · intro habs
        exact absurd habs (by simp)
      · intro hmap
        exfalso
        exact hlen ((map_str_eq_iff strV dref _ _).1 hmap).1
  · intro hlen
    unfold assertValues
    rw [if_pos (by omega)]
  · intro i hlen hi hfirst hmis
    unfold assertValues
    rw [if_neg (by omega)]
    have := assertValuesLoop_first_mismatch strV s.onNextEvents dref expected 0 i
      (by omega) hi (fun j hj => by simpa using hfirst j hj)
      (by simpa using hmis)
    simpa using this

/-- Witness for C5: recorded `[1, 2]`, expected `[1, 3]` mismatch at
index 1; matching `[1, 2]` succeeds. -/
theorem C5_assert_values_witness :
    ((assertValues toString toString (nextAll tsFresh [1, 2]) [1, 2] = Except.ok ()
        ↔ (nextAll tsFresh [1, 2]).onNextEvents.map toString
            = ([1, 2] : List Nat).map toString)
      ∧ ((nextAll tsFresh [1, 2]).onNextEvents.length ≠ ([1, 2] : List Nat).length →
          assertValues toString toString (nextAll tsFresh [1, 2]) [1, 2]
            = Except.error ("Expected " ++ toString ([1, 2] : List Nat).length
                ++ " values, but received "
                ++ toString (nextAll tsFresh [1, 2]).onNextEvents.length
                ++ ": " ++ toString (nextAll tsFresh [1, 2]).onNextEvents))
      ∧ (∀ i : Nat,
          (nextAll tsFresh [1, 2]).onNextEvents.length = ([1, 2] : List Nat).length →
          i < ([1, 2] : List Nat).length →
          (∀ j : Nat, j < i →
            toString ((nextAll tsFresh [1, 2]).onNextEvents.getD j 0)
              = toString (([1, 2] : List Nat).getD j 0)) →
          toString ((nextAll tsFresh [1, 2]).onNextEvents.getD i 0)
            ≠ toString (([1, 2] : List Nat).getD i 0) →
          assertValues toString toString (nextAll tsFresh [1, 2]) [1, 2]
            = Except.error ("Value mismatch at index " ++ toString i
                ++ ": expected " ++ toString (([1, 2] : List Nat).getD i 0)
                ++ ", but received "
                ++ toString ((nextAll tsFresh [1, 2]).onNextEvents.getD i 0))))
    ∧ assertValues toString toString (nextAll tsFresh [1, 2]) [1, 2] = Except.ok () :=
  ⟨C5_assert_values toString toString (nextAll tsFresh [1, 2]) [1, 2] 0,
    (C5_assert_values toString toString (nextAll tsFresh [1, 2]) [1, 2] 0).1.2
      (by rfl)⟩

/-!
## C7, C8, C9, C10
-/

/-- C7: with a throwing delegate handler, the recording subscriber still
records the notification fully and swallows the exception (the caller
sees none), while the Recording Observer appends its log entry and then
lets the delegate's exception propagate synchronously to the caller. -/
theorem C7_delegate_exception_policy {V E : Type} (strV : V → String)
    (strE : E → String) (s : TSState V E) (d : Delegate V E) (v : V) (e ex : E)
    (o : TOState V E) (od : ODelegate V E) (h : OHeap)
    (hsd : s.delegate = some d) (hod : o.delegate = some od) :
    (d.nextThrows v = some ex → demandOpen s = true →
        (next s v).1.onNextEvents = s.onNextEvents ++ [v]
        ∧ (next s v).2 = none)
    ∧ (d.errorThrows e = some ex →
        (error s e).1.errorEvents = s.errorEvents ++ [e]
        ∧ (error s e).1.terminalEventReceived = true
        ∧ (error s e).2 = none)
    ∧ (d.completeThrows = some ex →
        (complete s).1.completions = s.completions + 1
        ∧ (complete s).1.terminalEventReceived = true
        ∧ (complete s).2 = none)
    ∧ (od.nextThrows v = some ex →
        tobNext strV o h v
          = (logEvent o h ("next: " ++ strV v), some (OExn.delegated ex)))
    ∧ (od.errorThrows e = some ex →
        tobError strE o h e
          = (logEvent o h ("error: " ++ strE e), some (OExn.delegated ex)))
    ∧ (od.completeThrows = some ex →
        tobComplete o h
          = (logEvent o h "complete", some (OExn.delegated ex))) := by
  refine ⟨?_, ?_, ?_, ?_, ?_, ?_⟩
  · intro _ hdo
    unfold next
    rw [if_pos hdo, onNext_fst, onNext_snd]
    exact ⟨rfl, rfl⟩
  · intro _
    exact ⟨error_errorEvents s e, error_terminal s e,
      by rw [error, onError_snd]⟩
  · intro _
    exact ⟨complete_completions s, complete_terminal s,
      by rw [complete, onCompleted_snd]⟩
  · intro hthrow
    unfold tobNext
    rw [hod]
    simp only [hthrow]
  · intro hthrow
    unfold tobError
    rw [hod]
    simp only [hthrow]
  · intro hthrow
    unfold tobComplete
    rw [hod]
    simp only [hthrow]

/-- Witness for C7 with always-throwing delegates, value `1`, cause `2`. -/
theorem C7_delegate_exception_policy_witness :
    ((dThrow.nextThrows 1 = some 7 → demandOpen tsThrowDel = true →
        (next tsThrowDel 1).1.onNextEvents = tsThrowDel.onNextEvents ++ [1]
        ∧ (next tsThrowDel 1).2 = none)
      ∧ (dThrow.errorThrows 2 = some 7 →
          (error tsThrowDel 2).1.errorEvents = tsThrowDel.errorEvents ++ [2]
          ∧ (error tsThrowDel 2).1.terminalEventReceived = true
          ∧ (error tsThrowDel 2).2 = none)
      ∧ (dThrow.completeThrows = some 7 →
          (complete tsThrowDel).1.completions = tsThrowDel.completions + 1
          ∧ (complete tsThrowDel).1.terminalEventReceived = true
          ∧ (complete tsThrowDel).2 = none)
      ∧ (odThrow.nextThrows 1 = some 7 →
          tobNext toString toThrowDel (mkTO (some odThrow) []).2 1
            = (logEvent toThrowDel (mkTO (some odThrow) []).2
                  ("next: " ++ toString (1 : Nat)),
                some (OExn.delegated 7)))
      ∧ (odThrow.errorThrows 2 = some 7 →
          tobError toString toThrowDel (mkTO (some odThrow) []).2 2
            = (logEvent toThrowDel (mkTO (some odThrow) []).2
                  ("error: " ++ toString (2 : Nat)),
                some (OExn.delegated 7)))
      ∧ (odThrow.completeThrows = some 7 →
          tobComplete toThrowDel (mkTO (some odThrow) []).2
            = (logEvent toThrowDel (mkTO (some odThrow) []).2 "complete",
                some (OExn.delegated 7)))) :=
  C7_delegate_exception_policy toString toString tsThrowDel dThrow 1 2 7
    toThrowDel odThrow (mkTO (some odThrow) []).2 rfl rfl

/-- Observations after one notification do not depend on the ghost
delegate trace carried by the state. -/
lemma obs_notify_trace_indep {V E : Type} (s : TSState V E)
    (tr : List (DEvent V E)) (ev : Event V E) :
    obs (notify { s with delegateTrace := tr } ev) = obs (notify s ev) := by
  cases ev with
  | value v =>
      show obs (next { s with delegateTrace := tr } v).1 = obs (next s v).1
      unfold next
      have hdo : demandOpen { s with delegateTrace := tr } = demandOpen s := rfl
      by_cases hd : demandOpen s = true
      · rw [hdo, if_pos hd, if_pos hd, onNext_fst, onNext_fst]
        rfl
      · rw [hdo, if_neg hd, if_neg hd]
        rfl
  | failure e =>
      show obs (error { s with delegateTrace := tr } e).1 = obs (error s e).1
      unfold error
      rw [onError_fst, onError_fst]
      unfold obs fireResolver
      cases hres : s.resolverLive <;> simp
  | completion =>
      show obs (complete { s with delegateTrace := tr }).1 = obs (complete s).1
      unfold complete
      rw [onCompleted_fst, onCompleted_fst]
      unfold obs fireResolver
      cases hres : s.resolverLive <;> simp

/-- C8: `reset()` empties the value and error lists, zeroes the
completion counter, clears the terminal flag, reinitializes the
termination-wait signal (live resolver, zero resolutions) — the state
equals a freshly constructed instance up to the ghost trace of calls
the delegate already received — and every subsequent notification is
recorded exactly as on a fresh instance. -/
theorem C8_reset {V E : Type} (s : TSState V E) :
    (reset s).onNextEvents = []
    ∧ (reset s).errorEvents = []
    ∧ (reset s).completions = 0
    ∧ (reset s).terminalEventReceived = false
    ∧ (reset s).resolverLive = true
    ∧ (reset s).resolveCount = 0
    ∧ reset s = { mkTS s.delegate s.initialRequest with delegateTrace := s.delegateTrace }
    ∧ ∀ ev : Event V E,
        obs (notify (reset s) ev) = obs (notify (mkTS s.delegate s.initialRequest) ev) := by
  refine ⟨rfl, rfl, rfl, rfl, rfl, rfl, rfl, ?_⟩
  intro ev
  exact obs_notify_trace_indep (mkTS s.delegate s.initialRequest) s.delegateTrace ev

/-- C10: a value arriving through `next` after a terminal notification,
while the processed count is still below the demand limit, is recorded
and forwarded exactly like a pre-terminal value — the terminal flag
does not suppress value recording. -/
theorem C10_next_after_terminal {V E : Type} (s : TSState V E) (v : V)
    (d : Delegate V E) (hterm : s.terminalEventReceived = true)
    (hdo : demandOpen s = true) :
    (next s v).1.onNextEvents = s.onNextEvents ++ [v]
    ∧ (s.delegate = some d →
        (next s v).1.delegateTrace = s.delegateTrace ++ [DEvent.dnext v])
    ∧ (next s v).1.terminalEventReceived = true := by
  unfold next
  rw [if_pos hdo, onNext_fst]
  refine ⟨rfl, ?_, hterm⟩
  intro hd
  show s.delegateTrace ++ traceStep s.delegate (DEvent.dnext v) = _
  rw [hd]
  rfl

/-- Witness for C10 on `tsCompleted`, value `9`. -/
theorem C10_next_after_terminal_witness :
    tsCompleted.terminalEventReceived = true
    ∧ demandOpen tsCompleted = true
    ∧ ((next tsCompleted 9).1.onNextEvents = tsCompleted.onNextEvents ++ [9]
      ∧ (tsCompleted.delegate = some dIdle →
          (next tsCompleted 9).1.delegateTrace
            = tsCompleted.delegateTrace ++ [DEvent.dnext 9])
      ∧ (next tsCompleted 9).1.terminalEventReceived = true) :=
  ⟨by rfl, by rfl, C10_next_after_terminal tsCompleted 9 dIdle (by rfl) (by rfl)⟩

/-!
## C9: `getLogs` aliasing

`TestObserver.getLogs` is `return this.logs;` with return type
`string[]`: the caller receives the internal array itself.  A push
through that reference mutates the observer's internal log, refuting
the copy/read-only-view claim; the theorems below pin down both the
refutation and the actual aliasing behaviour.
-/

/-- Counterexample to C9 as stated: on a fresh observer, pushing one
line through the array returned by `getLogs` changes the observer's
internal log state (from `[]` to `["X"]`). -/
theorem C9_getLogs_counterexample :
    ¬ (heapRead (heapPush toFreshHeap (getLogs toFresh) "X") toFresh.logsRef
        = heapRead toFreshHeap toFresh.logsRef) := by
  decide

/-- C9 (amended): `getLogs` returns the internal log array itself — the
very reference the observer records into — so a mutation through the
returned value is a mutation of the internal log: pushing a line
through it appends that line to the observer's log state. -/
theorem C9_getLogs_alias {V E : Type} (o : TOState V E) (h : OHeap)
    (line : String) (hid : o.logsRef < h.length) :
    getLogs o = o.logsRef
    ∧ heapRead (heapPush h (getLogs o) line) o.logsRef
        = heapRead h o.logsRef ++ [line] := by
  refine ⟨rfl, ?_⟩
  unfold getLogs heapPush heapRead
  rw [List.getD_eq_getElem _ _ (by simpa using hid)]
  exact List.getElem_set_self (by simpa using hid)

/-- Witness for C9 (amended) on the fresh observer and its heap. -/
theorem C9_getLogs_alias_witness :
    toFresh.logsRef < toFreshHeap.length
    ∧ (getLogs toFresh = toFresh.logsRef
      ∧ heapRead (heapPush toFreshHeap (getLogs toFresh) "X") toFresh.logsRef
          = heapRead toFreshHeap toFresh.logsRef ++ ["X"]) :=
  ⟨by decide, C9_getLogs_alias toFresh toFreshHeap "X" (by decide)⟩

end RxTest


